import Mathlib

/-!
Shallow embedding of `sgx_tstd/src/time.rs` (trusted-enclave time primitives).

The file `time.rs` wraps an external Clock Adapter (`sys::time`, not part of
the sources) and the external `core::time::Duration` type.  Those two
collaborators are modelled from the spec (sections 2, 3 and 6) below; every
other definition is translated directly from `time.rs`.

Panics are modelled as `none`; the `Result` of the wall clock as `Except`.
The process-wide watermark `LAST_NOW` is threaded explicitly; the adapter
capability probe and the outcome of the watermark-lock acquisition are
parameters of `Instant._now`.
-/

/-- Modelled from the spec: the external Duration value type, an immutable
magnitude of elapsed time (seconds plus sub-second fraction), consumed as-is
and not reimplemented by the core.  Represented as a total nanosecond count. -/
abbrev Duration := Nat

/-- Nanoseconds per second, the sub-second radix of adapter readings. -/
def nsPerSec : Int := 1000000000

/-- Modelled from the spec: smallest representable adapter reading, as total
nanoseconds (the decomposed seconds component is a 64-bit signed integer). -/
def tsMinNs : Int := -(2 ^ 63) * nsPerSec

/-- Modelled from the spec: largest representable adapter reading, as total
nanoseconds (maximal 64-bit signed seconds plus maximal nanosecond part). -/
def tsMaxNs : Int := (2 ^ 63 - 1) * nsPerSec + (nsPerSec - 1)

/-- Modelled from the spec: a raw reading of the Clock Adapter (`sys::time`
is outside the sources; section 6 of the spec gives its interface).  A
reading decomposes into 64-bit signed seconds and nanoseconds; it is stored
here as the equivalent total nanosecond count. -/
structure Timespec where
  t : Int
deriving DecidableEq

/-- A reading is within the adapter representable range. -/
def Timespec.valid (ts : Timespec) : Prop := tsMinNs ≤ ts.t ∧ ts.t ≤ tsMaxNs

instance (ts : Timespec) : Decidable ts.valid :=
  inferInstanceAs (Decidable (tsMinNs ≤ ts.t ∧ ts.t ≤ tsMaxNs))

instance : LE Timespec := ⟨fun a b => a.t ≤ b.t⟩

instance : LT Timespec := ⟨fun a b => a.t < b.t⟩

instance (a b : Timespec) : Decidable (a ≤ b) := inferInstanceAs (Decidable (a.t ≤ b.t))

instance (a b : Timespec) : Decidable (a < b) := inferInstanceAs (Decidable (a.t < b.t))

theorem timespec_le_def (a b : Timespec) : (a ≤ b) = (a.t ≤ b.t) := rfl

theorem timespec_lt_def (a b : Timespec) : (a < b) = (a.t < b.t) := rfl

/-- `core::cmp::max` on adapter readings: returns the second argument when
the two compare equal. -/
def Timespec.max (a b : Timespec) : Timespec := if b < a then a else b

/-- Modelled from the spec: the adapter `zero_reading()` sentinel, used to
initialise the watermark. -/
def Timespec.zero : Timespec := ⟨0⟩

/-- Modelled from the spec: adapter `checked_add_duration`, absent iff the
result would exceed the representable range. -/
def Timespec.checked_add_duration (ts : Timespec) (d : Duration) : Option Timespec :=
  if ts.t + (d : Int) ≤ tsMaxNs then some ⟨ts.t + (d : Int)⟩ else none

/-- Modelled from the spec: adapter `checked_sub_duration`, absent iff the
result would fall below the representable range. -/
def Timespec.checked_sub_duration (ts : Timespec) (d : Duration) : Option Timespec :=
  if tsMinNs ≤ ts.t - (d : Int) then some ⟨ts.t - (d : Int)⟩ else none

/-- Modelled from the spec: adapter `checked_sub_instant`, the pairwise
monotonic difference, present iff `other` is not later than `self`. -/
def Timespec.checked_sub_instant (self other : Timespec) : Option Duration :=
  if other.t ≤ self.t then some (self.t - other.t).toNat else none

/-- Modelled from the spec: adapter `sub_time`, the fallible pairwise
wall-clock difference; the error carries the magnitude of the overshoot. -/
def Timespec.sub_time (self other : Timespec) : Except Duration Duration :=
  if other.t ≤ self.t then Except.ok (self.t - other.t).toNat
  else Except.error (other.t - self.t).toNat

/-- Modelled from the spec: adapter `decompose` into 64-bit signed
(seconds, nanoseconds), the nanosecond component lying in `[0, 10^9)`. -/
def Timespec.get_tup (ts : Timespec) : Int × Int :=
  (Int.ediv ts.t nsPerSec, Int.emod ts.t nsPerSec)

/-- `pub struct Instant(time::Instant)` from `time.rs`: an opaque monotonic
timestamp wrapping one adapter reading. -/
structure Instant where
  val : Timespec
deriving DecidableEq

instance : LE Instant := ⟨fun a b => a.val ≤ b.val⟩

instance : LT Instant := ⟨fun a b => a.val < b.val⟩

instance (a b : Instant) : Decidable (a ≤ b) := inferInstanceAs (Decidable (a.val ≤ b.val))

instance (a b : Instant) : Decidable (a < b) := inferInstanceAs (Decidable (a.val < b.val))

theorem instant_le_def (a b : Instant) : (a ≤ b) = (a.val.t ≤ b.val.t) := rfl

theorem instant_lt_def (a b : Instant) : (a < b) = (a.val.t < b.val.t) := rfl

/-- `Instant::_now` from `time.rs`.  Arguments: the adapter capability probe
`time::Instant::actually_monotonic()`, the outcome of `LOCK.lock()`, the
fresh raw reading `os_now = time::Instant::now()`, and the current value of
the static watermark `LAST_NOW`.  Returns the produced `Instant` paired
with the watermark after the call. -/
def Instant._now (actually_monotonic lock_ok : Bool)
    (os_now last_now : Timespec) : Instant × Timespec :=
  if actually_monotonic then (⟨os_now⟩, last_now)
  else if lock_ok then
    let now := Timespec.max last_now os_now
    (⟨now⟩, now)
  else (⟨os_now⟩, last_now)

/-- Feed a list of raw readings through `Instant._now` in order, threading
the watermark state; returns the produced instants. -/
def Instant.run_now (actually_monotonic lock_ok : Bool) :
    List Timespec → Timespec → List Instant
  | [], _ => []
  | r :: rs, st =>
    let p := Instant._now actually_monotonic lock_ok r st
    p.1 :: Instant.run_now actually_monotonic lock_ok rs p.2

/-- `Instant::duration_since`: `checked_sub_instant(..).expect(..)`.  The
panic branch of the source (supplied instant later than self) is modelled
as `none`. -/
def Instant.duration_since (self earlier : Instant) : Option Duration :=
  self.val.checked_sub_instant earlier.val

/-- `Instant::checked_duration_since`. -/
def Instant.checked_duration_since (self earlier : Instant) : Option Duration :=
  self.val.checked_sub_instant earlier.val

/-- `Instant::saturating_duration_since`:
`checked_duration_since(..).unwrap_or(Duration::new(0, 0))`. -/
def Instant.saturating_duration_since (self earlier : Instant) : Duration :=
  (self.checked_duration_since earlier).getD 0

/-- `Instant::checked_add`. -/
def Instant.checked_add (self : Instant) (duration : Duration) : Option Instant :=
  (self.val.checked_add_duration duration).map Instant.mk

/-- `Instant::checked_sub`. -/
def Instant.checked_sub (self : Instant) (duration : Duration) : Option Instant :=
  (self.val.checked_sub_duration duration).map Instant.mk

/-- `Instant::get_tup`: return a tuple (sec, nsec). -/
def Instant.get_tup (self : Instant) : Int × Int := self.val.get_tup

/-- `impl Add of Duration for Instant`: `checked_add(..).expect(..)`, the
overflow panic modelled as `none`. -/
def Instant.add (self : Instant) (other : Duration) : Option Instant :=
  self.checked_add other

/-- `impl Sub of Instant for Instant`: `self.duration_since(other)`, the
panic modelled as `none`. -/
def Instant.sub (self other : Instant) : Option Duration :=
  self.duration_since other

/-- `pub struct SystemTime(time::SystemTime)` from `time.rs`: an opaque
wall-clock timestamp anchored to the epoch. -/
structure SystemTime where
  val : Timespec
deriving DecidableEq

/-- `pub struct SystemTimeError(Duration)` from `time.rs`. -/
structure SystemTimeError where
  d : Duration
deriving DecidableEq

instance : LE SystemTime := ⟨fun a b => a.val ≤ b.val⟩

instance : LT SystemTime := ⟨fun a b => a.val < b.val⟩

instance (a b : SystemTime) : Decidable (a ≤ b) := inferInstanceAs (Decidable (a.val ≤ b.val))

instance (a b : SystemTime) : Decidable (a < b) := inferInstanceAs (Decidable (a.val < b.val))

/-- `SystemTime::_now`: the raw adapter wall reading, no correction. -/
def SystemTime._now (os_now : Timespec) : SystemTime := ⟨os_now⟩

/-- `SystemTime::duration_since`: `self.0.sub_time(&earlier.0).map_err(SystemTimeError)`. -/
def SystemTime.duration_since (self earlier : SystemTime) :
    Except SystemTimeError Duration :=
  (self.val.sub_time earlier.val).mapError SystemTimeError.mk

/-- `SystemTime::checked_add`. -/
def SystemTime.checked_add (self : SystemTime) (duration : Duration) : Option SystemTime :=
  (self.val.checked_add_duration duration).map SystemTime.mk

/-- `SystemTime::checked_sub`. -/
def SystemTime.checked_sub (self : SystemTime) (duration : Duration) : Option SystemTime :=
  (self.val.checked_sub_duration duration).map SystemTime.mk

/-- `SystemTime::get_tup`: return a tuple (sec, nsec). -/
def SystemTime.get_tup (self : SystemTime) : Int × Int := self.val.get_tup

/-- `pub const UNIX_EPOCH: SystemTime = SystemTime(time::UNIX_EPOCH)`, the
zero offset into the adapter wall-clock representation. -/
def UNIX_EPOCH : SystemTime := ⟨Timespec.zero⟩

/-- `SystemTimeError::duration`. -/
def SystemTimeError.duration (self : SystemTimeError) : Duration := self.d

/-- The `cmp::max` of two readings carries the larger total nanosecond count. -/
theorem timespec_max_t (a b : Timespec) : (Timespec.max a b).t = max a.t b.t := by
  unfold Timespec.max
  by_cases h : b < a
  · rw [if_pos h]
    rw [timespec_lt_def] at h
    exact (max_eq_left h.le).symm
  · rw [if_neg h]
    rw [timespec_lt_def] at h
    exact (max_eq_right (not_lt.mp h)).symm

/-- Unfolding of the wall-clock difference into its two branches. -/
theorem SystemTime.duration_since_def (self earlier : SystemTime) :
    self.duration_since earlier =
      if earlier.val.t ≤ self.val.t then Except.ok (self.val.t - earlier.val.t).toNat
      else Except.error ⟨(earlier.val.t - self.val.t).toNat⟩ := by
  unfold SystemTime.duration_since Timespec.sub_time
  by_cases h : earlier.val.t ≤ self.val.t
  · rw [if_pos h, if_pos h]
    rfl
  · rw [if_neg h, if_neg h]
    rfl

/-- Claim C1: if the adapter reports its raw readings inherently monotonic,
now returns the fresh raw reading unmodified and does not touch the
watermark; otherwise, under successful lock acquisition it returns the
maximum of the watermark and the reading and stores that value as the new
watermark, and under failed acquisition it returns the raw reading
unmodified; feeding the raw readings 10, 4, 4, 9, 20 through the protocol
from the zero watermark with the lock always acquired yields the outputs
10, 10, 10, 10, 20. -/
theorem now_correction_protocol :
    (∀ lk : Bool, ∀ os st : Timespec, Instant._now true lk os st = (⟨os⟩, st)) ∧
    (∀ os st : Timespec,
      (Instant._now false true os st).1.val.t = max st.t os.t ∧
      (Instant._now false true os st).2.t = max st.t os.t) ∧
    (∀ os st : Timespec, Instant._now false false os st = (⟨os⟩, st)) ∧
    Instant.run_now false true [⟨10⟩, ⟨4⟩, ⟨4⟩, ⟨9⟩, ⟨20⟩] Timespec.zero =
      [⟨⟨10⟩⟩, ⟨⟨10⟩⟩, ⟨⟨10⟩⟩, ⟨⟨10⟩⟩, ⟨⟨20⟩⟩] := by
  refine ⟨fun lk os st => rfl, fun os st => ⟨?_, ?_⟩, fun os st => rfl, by decide⟩
  · exact timespec_max_t st os
  · exact timespec_max_t st os

/-- Claim C2: across any call of now, the watermark never decreases: the
post-call watermark is at least the pre-call one; a call that fails to
acquire the lock leaves the watermark unchanged, as does a call on a
platform whose readings are known monotonic. -/
theorem watermark_monotone (am lk : Bool) (os st : Timespec) :
    st ≤ (Instant._now am lk os st).2 ∧
    (Instant._now am false os st).2 = st ∧
    (Instant._now true lk os st).2 = st := by
  refine ⟨?_, by cases am <;> rfl, rfl⟩
  cases am <;> cases lk
  · exact Int.le_refl st.t
  · show st ≤ Timespec.max st os
    rw [timespec_le_def, timespec_max_t]
    exact le_max_left _ _
  · exact Int.le_refl st.t
  · exact Int.le_refl st.t

/-- Claim C3: for instants a ≤ b (with b inside the representable range),
b.duration_since a succeeds, and its value is the unique duration d with
a + d = b. -/
theorem duration_since_add_roundtrip (a b : Instant)
    (hb : b.val.t ≤ tsMaxNs) (h : a ≤ b) :
    ∃ d : Duration, b.duration_since a = some d ∧ Instant.add a d = some b ∧
      ∀ e : Duration, Instant.add a e = some b → e = d := by
  rw [instant_le_def] at h
  refine ⟨(b.val.t - a.val.t).toNat, ?_, ?_, ?_⟩
  · unfold Instant.duration_since Timespec.checked_sub_instant
    rw [if_pos h]
  · unfold Instant.add Instant.checked_add Timespec.checked_add_duration
    have ht : a.val.t + (((b.val.t - a.val.t).toNat : Nat) : Int) = b.val.t := by omega
    rw [ht, if_pos hb]
    rfl
  · intro e he
    unfold Instant.add Instant.checked_add Timespec.checked_add_duration at he
    by_cases hc : a.val.t + (e : Int) ≤ tsMaxNs
    · rw [if_pos hc] at he
      injection he with he1
      have he2 : a.val.t + (e : Int) = b.val.t := by rw [← he1]
      have he3 : (e : Int) = (((b.val.t - a.val.t).toNat : Nat) : Int) := by omega
      exact Nat.cast_injective he3
    · rw [if_neg hc] at he
      exact Option.noConfusion he

/-- Witness for claim C3 at the concrete instants 3 and 7. -/
theorem duration_since_add_roundtrip_witness :
    Instant.mk ⟨3⟩ ≤ Instant.mk ⟨7⟩ ∧
    (∃ d : Duration, Instant.duration_since ⟨⟨7⟩⟩ ⟨⟨3⟩⟩ = some d ∧
      Instant.add ⟨⟨3⟩⟩ d = some ⟨⟨7⟩⟩ ∧
      ∀ e : Duration, Instant.add ⟨⟨3⟩⟩ e = some ⟨⟨7⟩⟩ → e = d) :=
  ⟨by decide, duration_since_add_roundtrip ⟨⟨3⟩⟩ ⟨⟨7⟩⟩ (by decide) (by decide)⟩

/-- Claim C4 as stated is false on the code: for an instant a strictly
later than b (a at reading 5, b at reading 3), a.duration_since b succeeds
with the value 2 rather than being a fatal violation,
a.checked_duration_since b is present rather than absent, and
a.saturating_duration_since b is 2 rather than the zero duration. -/
theorem later_order_counterexample :
    Instant.mk ⟨3⟩ < Instant.mk ⟨5⟩ ∧
    Instant.duration_since ⟨⟨5⟩⟩ ⟨⟨3⟩⟩ = some 2 ∧
    Instant.checked_duration_since ⟨⟨5⟩⟩ ⟨⟨3⟩⟩ ≠ none ∧
    Instant.saturating_duration_since ⟨⟨5⟩⟩ ⟨⟨3⟩⟩ ≠ 0 := by decide

/-- Claim C4 amended: for all instants a strictly earlier than b,
a.duration_since b is the fatal contract violation (modelled as none),
a.checked_duration_since b is none, and a.saturating_duration_since b is
the zero duration. -/
theorem earlier_order_violation (a b : Instant) (h : a < b) :
    a.duration_since b = none ∧ a.checked_duration_since b = none ∧
    a.saturating_duration_since b = 0 := by
  rw [instant_lt_def] at h
  have hn : Timespec.checked_sub_instant a.val b.val = none := by
    unfold Timespec.checked_sub_instant
    rw [if_neg (by omega)]
  refine ⟨hn, hn, ?_⟩
  show (Timespec.checked_sub_instant a.val b.val).getD 0 = 0
  rw [hn]
  rfl

/-- Witness for the amended claim C4 at the concrete instants 3 and 5. -/
theorem earlier_order_violation_witness :
    Instant.mk ⟨3⟩ < Instant.mk ⟨5⟩ ∧
    (Instant.duration_since ⟨⟨3⟩⟩ ⟨⟨5⟩⟩ = none ∧
      Instant.checked_duration_since ⟨⟨3⟩⟩ ⟨⟨5⟩⟩ = none ∧
      Instant.saturating_duration_since ⟨⟨3⟩⟩ ⟨⟨5⟩⟩ = 0) :=
  ⟨by decide, earlier_order_violation ⟨⟨3⟩⟩ ⟨⟨5⟩⟩ (by decide)⟩

/-- Claim C5: wall-clock duration_since returns a success exactly when self
is at or after earlier; otherwise it returns an error whose payload is the
magnitude by which earlier exceeds self; concretely, epoch+0s differenced
against epoch+5s is the error carrying five seconds. -/
theorem systemtime_duration_since_spec :
    (∀ s e : SystemTime, (∃ d : Duration, s.duration_since e = Except.ok d) ↔ e ≤ s) ∧
    (∀ s e : SystemTime, ∀ m : SystemTimeError,
      s.duration_since e = Except.error m → s < e ∧ (m.d : Int) = e.val.t - s.val.t) ∧
    SystemTime.duration_since ⟨⟨0⟩⟩ ⟨⟨5000000000⟩⟩ = Except.error ⟨5000000000⟩ := by
  refine ⟨?_, ?_, rfl⟩
  · intro s e
    rw [SystemTime.duration_since_def]
    by_cases h : e.val.t ≤ s.val.t
    · rw [if_pos h]
      exact ⟨fun _ => h, fun _ => ⟨_, rfl⟩⟩
    · rw [if_neg h]
      exact ⟨fun ⟨d, hd⟩ => Except.noConfusion hd, fun hle => absurd hle h⟩
  · intro s e m hm
    rw [SystemTime.duration_since_def] at hm
    by_cases h : e.val.t ≤ s.val.t
    · rw [if_pos h] at hm
      exact Except.noConfusion hm
    · rw [if_neg h] at hm
      injection hm with hm1
      constructor
      · show s.val.t < e.val.t
        omega
      · rw [← hm1]
        show (((e.val.t - s.val.t).toNat : Nat) : Int) = e.val.t - s.val.t
        omega

/-- Witness for claim C5 at epoch+0s and epoch+5s. -/
theorem systemtime_duration_since_spec_witness :
    SystemTime.mk ⟨0⟩ < SystemTime.mk ⟨5000000000⟩ ∧
    (((⟨5000000000⟩ : SystemTimeError).d : Int) =
      (⟨5000000000⟩ : Timespec).t - (⟨0⟩ : Timespec).t) :=
  systemtime_duration_since_spec.2.1 ⟨⟨0⟩⟩ ⟨⟨5000000000⟩⟩ ⟨5000000000⟩ rfl

/-- Claim C6: checked_duration_since earlier is present iff earlier is not
later than self, and the order on instants is a total order: reflexive,
transitive, antisymmetric, and total. -/
theorem instant_order_total :
    (∀ a b : Instant, (a.checked_duration_since b).isSome = true ↔ b ≤ a) ∧
    (∀ a : Instant, a ≤ a) ∧
    (∀ a b c : Instant, a ≤ b → b ≤ c → a ≤ c) ∧
    (∀ a b : Instant, a ≤ b → b ≤ a → a = b) ∧
    (∀ a b : Instant, a ≤ b ∨ b ≤ a) := by
  refine ⟨?_, fun a => Int.le_refl a.val.t,
    fun a b c h1 h2 => Int.le_trans h1 h2, ?_, ?_⟩
  · intro a b
    unfold Instant.checked_duration_since Timespec.checked_sub_instant
    by_cases h : b.val.t ≤ a.val.t
    · rw [if_pos h]
      exact ⟨fun _ => h, fun _ => rfl⟩
    · rw [if_neg h]
      exact ⟨fun hs => Bool.noConfusion hs, fun hle => absurd hle h⟩
  · intro a b h1 h2
    have h3 : a.val.t = b.val.t := Int.le_antisymm h1 h2
    obtain ⟨⟨ta⟩⟩ := a
    obtain ⟨⟨tb⟩⟩ := b
    simp only [Instant.mk.injEq, Timespec.mk.injEq]
    exact h3
  · intro a b
    exact Int.le_total a.val.t b.val.t

/-- Witness for claim C6, antisymmetry at two equal-reading instants. -/
theorem instant_order_total_witness :
    Instant.mk ⟨4⟩ ≤ Instant.mk ⟨4⟩ ∧ Instant.mk ⟨4⟩ = Instant.mk ⟨4⟩ :=
  ⟨by decide, instant_order_total.2.2.2.1 ⟨⟨4⟩⟩ ⟨⟨4⟩⟩ (by decide) (by decide)⟩

/-- Claim C7: checked arithmetic round-trips: whenever t.checked_add d is
some u (t itself being above the lower representable bound, as every
reading held by an Instant is), u.checked_sub d is some t. -/
theorem checked_add_sub_roundtrip (t : Instant) (d : Duration) (u : Instant)
    (hmin : tsMinNs ≤ t.val.t) (h : t.checked_add d = some u) :
    u.checked_sub d = some t := by
  have hu : u.val.t = t.val.t + (d : Int) := by
    unfold Instant.checked_add Timespec.checked_add_duration at h
    by_cases hc : t.val.t + (d : Int) ≤ tsMaxNs
    · rw [if_pos hc] at h
      injection h with h1
      rw [← h1]
    · rw [if_neg hc] at h
      exact Option.noConfusion h
  unfold Instant.checked_sub Timespec.checked_sub_duration
  rw [if_pos (show tsMinNs ≤ u.val.t - (d : Int) by omega)]
  have hval : u.val.t - (d : Int) = t.val.t := by omega
  rw [hval]
  rfl

/-- Witness for claim C7 at instant 0 and duration 5. -/
theorem checked_add_sub_roundtrip_witness :
    tsMinNs ≤ (0 : Int) ∧ Instant.checked_sub ⟨⟨5⟩⟩ 5 = some ⟨⟨0⟩⟩ :=
  ⟨by decide, checked_add_sub_roundtrip ⟨⟨0⟩⟩ 5 ⟨⟨5⟩⟩ (by decide) (by decide)⟩

/-- Claim C8: the wall-clock epoch identity: differencing the epoch against
itself is a success carrying the zero duration. -/
theorem unix_epoch_identity :
    UNIX_EPOCH.duration_since UNIX_EPOCH = Except.ok 0 := rfl

/-- Claim C9 as stated is false on the code: get_tup is a public operation
on both timestamp types and decodes a timestamp into its
(seconds, nanoseconds) reading, a human-meaningful quantity that is not a
duration obtained by subtracting two timestamps. -/
theorem opacity_counterexample :
    Instant.get_tup ⟨⟨5000000003⟩⟩ = (5, 3) ∧
    SystemTime.get_tup ⟨⟨7000000001⟩⟩ = (7, 1) := by decide

/-- Claim C9 amended: the public get_tup accessors decode a timestamp into
the (seconds, nanoseconds) decomposition of its internal reading, the
nanosecond component lying in [0, 10^9); apart from these accessors the
only derived value is a duration from subtracting two timestamps. -/
theorem get_tup_decomposition (i : Instant) (s : SystemTime) :
    (i.get_tup.1 * nsPerSec + i.get_tup.2 = i.val.t ∧
      0 ≤ i.get_tup.2 ∧ i.get_tup.2 < nsPerSec) ∧
    (s.get_tup.1 * nsPerSec + s.get_tup.2 = s.val.t ∧
      0 ≤ s.get_tup.2 ∧ s.get_tup.2 < nsPerSec) := by
  have key : ∀ ts : Timespec,
      ts.get_tup.1 * nsPerSec + ts.get_tup.2 = ts.t ∧
        0 ≤ ts.get_tup.2 ∧ ts.get_tup.2 < nsPerSec := by
    intro ts
    show ts.t / 1000000000 * 1000000000 + ts.t % 1000000000 = ts.t ∧
      0 ≤ ts.t % 1000000000 ∧ ts.t % 1000000000 < 1000000000
    omega
  exact ⟨key i.val, key s.val⟩

/-- Claim C10: subtraction of two instants is exactly duration_since, and
is therefore the fatal violation (modelled as none) whenever the
subtrahend is strictly later than the minuend. -/
theorem sub_eq_duration_since (a b : Instant) :
    Instant.sub a b = a.duration_since b ∧ (a < b → Instant.sub a b = none) := by
  refine ⟨rfl, fun h => ?_⟩
  rw [instant_lt_def] at h
  unfold Instant.sub Instant.duration_since Timespec.checked_sub_instant
  rw [if_neg (by omega)]

/-- Witness for claim C10 at the concrete instants 1 and 2. -/
theorem sub_eq_duration_since_witness :
    Instant.mk ⟨1⟩ < Instant.mk ⟨2⟩ ∧ Instant.sub ⟨⟨1⟩⟩ ⟨⟨2⟩⟩ = none :=
  ⟨by decide, (sub_eq_duration_since ⟨⟨1⟩⟩ ⟨⟨2⟩⟩).2 (by decide)⟩
